import Mathlib

/-!
# Verification of the FIR fitness app's workout-completion tracker and
# exercise-query server actions

Shallow embedding of the client-side workout tracker (`RecordProvider` in the
record context: `toggleWorkoutDay`, `isWorkoutCompleted`) and of the server
actions (`getWarmupExercises`, `getStretchExercises`, `getWorkoutExercises`,
`getExerciseById`, `getExercisesByType`, `getExerciseGroups`,
`getExercisesByGroup`, `getBodySections`).

The backing store (Supabase) is modelled as an environment supplying, for each
query the code issues, either a normal response `{ data, error }` or a thrown
exception; the tracker's persistence call is modelled by its observable
outcome (`success`, reported `failure`, or `thrown`).
-/

namespace FitApp

/-- A row of the `workout_days` table as held in the tracker's local state. -/
structure WorkoutDay where
  user_id : String
  date : String
  completed : Bool
deriving DecidableEq, Repr

/-- The tracker's React state: the `workoutDays` collection, the loading flag
and the last error message. -/
structure TrackerState where
  workoutDays : List WorkoutDay
  isLoading : Bool
  error : Option String
deriving DecidableEq, Repr

/-- The arguments of the persistence call `toggleWorkoutDayAction(user.id,
date, newCompleted)` issued by `toggleWorkoutDay`. -/
structure WriteRequest where
  user_id : String
  date : String
  completed : Bool
deriving DecidableEq, Repr

/-- Observable outcome of the persistence call: it resolves with
`{success: true}`, resolves with `{success: false}`, or throws. -/
inductive WriteOutcome where
  | success
  | failure
  | thrown
deriving DecidableEq, Repr

/-- `workoutDays.find(day => day.date === date)`. -/
def findWorkout (l : List WorkoutDay) (date : String) : Option WorkoutDay :=
  l.find? fun day => day.date == date

/-- The closure `day => (day.date === date ? { ...day, completed: b } : day)`
used both by the optimistic update and by the rollback. -/
def updateCompleted (date : String) (b : Bool) (day : WorkoutDay) : WorkoutDay :=
  if day.date == date then { day with completed := b } else day

/-- `existingWorkout ? !existingWorkout.completed : true` (step 2 of the
toggle: the target `newCompleted` value). -/
def targetCompleted (l : List WorkoutDay) (date : String) : Bool :=
  match findWorkout l date with
  | some w => !w.completed
  | none => true

/-- `toggleWorkoutDay(date)` from the record context, with the persistence
call's outcome made an explicit parameter.  Returns the post-call state
together with the persistence request issued (`none` when no call was made).

Mirrors the source: no-op without a user; compute `existingWorkout` and
`newCompleted`; optimistically map/append; on `success` keep the optimistic
collection; on reported failure or thrown error revert by restoring the prior
`completed` (map) or removing the appended record (filter). -/
def toggleWorkoutDay (user : Option String) (date : String)
    (outcome : WriteOutcome) (s : TrackerState) :
    TrackerState × Option WriteRequest :=
  match user with
  | none => (s, none)
  | some uid =>
    let existingWorkout := findWorkout s.workoutDays date
    let newCompleted := targetCompleted s.workoutDays date
    let optimistic : List WorkoutDay :=
      match existingWorkout with
      | some _ => s.workoutDays.map (updateCompleted date newCompleted)
      | none => s.workoutDays ++ [⟨uid, date, newCompleted⟩]
    let reverted : List WorkoutDay :=
      match existingWorkout with
      | some w => optimistic.map (updateCompleted date w.completed)
      | none => optimistic.filter fun day => day.date != date
    match outcome with
    | .success => ({ s with workoutDays := optimistic }, some ⟨uid, date, newCompleted⟩)
    | .failure => ({ s with workoutDays := reverted }, some ⟨uid, date, newCompleted⟩)
    | .thrown => ({ s with workoutDays := reverted }, some ⟨uid, date, newCompleted⟩)

/-- `isWorkoutCompleted(date)`: `workout?.completed || false`. -/
def isWorkoutCompleted (s : TrackerState) (date : String) : Bool :=
  match findWorkout s.workoutDays date with
  | some w => w.completed
  | none => false

/-- The spec's steps 2-3, written from the spec's words ("if a local record
for `date` exists, target = logical negation of its current `completed`; else
target = true"; "if record exists, update its `completed` field in place to
target; else append a new record `{user_id, date, completed: target}`"),
for comparison with the success path of `toggleWorkoutDay`. -/
def specOptimisticState (uid date : String) (s : TrackerState) : TrackerState :=
  match findWorkout s.workoutDays date with
  | some w =>
    { s with workoutDays :=
        s.workoutDays.map fun day =>
          if day.date == date then { day with completed := !w.completed } else day }
  | none =>
    { s with workoutDays := s.workoutDays ++ [⟨uid, date, true⟩] }

/-- The spec's uniqueness invariant: at most one record per `(user_id, date)`
in the tracker's local view. -/
def atMostOnePerUserDate (l : List WorkoutDay) : Prop :=
  ∀ u d, (l.countP fun r => r.user_id == u && r.date == d) ≤ 1

section TrackerLemmas

theorem updateCompleted_date (date : String) (b : Bool) (day : WorkoutDay) :
    (updateCompleted date b day).date = day.date := by
  unfold updateCompleted; split <;> rfl

theorem updateCompleted_user_id (date : String) (b : Bool) (day : WorkoutDay) :
    (updateCompleted date b day).user_id = day.user_id := by
  unfold updateCompleted; split <;> rfl

theorem updateCompleted_of_ne (date : String) (b : Bool) (day : WorkoutDay)
    (h : day.date ≠ date) : updateCompleted date b day = day := by
  unfold updateCompleted
  simp [h]

theorem findWorkout_map_update (l : List WorkoutDay) (date : String) (b : Bool) :
    findWorkout (l.map (updateCompleted date b)) date =
      (findWorkout l date).map (updateCompleted date b) := by
  unfold findWorkout
  rw [List.find?_map]
  have hp : ((fun day => day.date == date) ∘ updateCompleted date b) =
      fun day : WorkoutDay => day.date == date := by
    funext day
    simp [Function.comp, updateCompleted_date]
  rw [hp]

theorem findWorkout_eq_none_iff (l : List WorkoutDay) (date : String) :
    findWorkout l date = none ↔ ∀ w ∈ l, w.date ≠ date := by
  unfold findWorkout
  rw [List.find?_eq_none]
  simp

theorem findWorkout_date (l : List WorkoutDay) (date : String) (w : WorkoutDay)
    (h : findWorkout l date = some w) : w.date = date := by
  have := List.find?_some h
  simpa using this

theorem findWorkout_mem (l : List WorkoutDay) (date : String) (w : WorkoutDay)
    (h : findWorkout l date = some w) : w ∈ l :=
  List.mem_of_find?_eq_some h

/-- The collection after the success branch, record found: one map. -/
def foundOptimistic (l : List WorkoutDay) (date : String) (w : WorkoutDay) :
    List WorkoutDay :=
  l.map (updateCompleted date (!w.completed))

/-- The collection after the revert branch, record found: map then restore. -/
def foundReverted (l : List WorkoutDay) (date : String) (w : WorkoutDay) :
    List WorkoutDay :=
  (l.map (updateCompleted date (!w.completed))).map (updateCompleted date w.completed)

/-- The collection after the success branch, no record found: append. -/
def notfoundOptimistic (l : List WorkoutDay) (uid date : String) : List WorkoutDay :=
  l ++ [(⟨uid, date, true⟩ : WorkoutDay)]

/-- The collection after the revert branch, no record found: filter out. -/
def notfoundReverted (l : List WorkoutDay) (uid date : String) : List WorkoutDay :=
  (l ++ [(⟨uid, date, true⟩ : WorkoutDay)]).filter fun day => day.date != date

theorem toggleWorkoutDay_found_success (uid date : String) (s : TrackerState)
    (w : WorkoutDay) (h : findWorkout s.workoutDays date = some w) :
    toggleWorkoutDay (some uid) date .success s =
      ({ s with workoutDays := foundOptimistic s.workoutDays date w },
        some (⟨uid, date, !w.completed⟩ : WriteRequest)) := by
  simp [toggleWorkoutDay, targetCompleted, foundOptimistic, h]

theorem toggleWorkoutDay_found_revert (uid date : String) (s : TrackerState)
    (w : WorkoutDay) (oc : WriteOutcome) (h : findWorkout s.workoutDays date = some w)
    (hoc : oc ≠ .success) :
    toggleWorkoutDay (some uid) date oc s =
      ({ s with workoutDays := foundReverted s.workoutDays date w },
        some (⟨uid, date, !w.completed⟩ : WriteRequest)) := by
  cases oc with
  | success => exact absurd rfl hoc
  | failure => simp [toggleWorkoutDay, targetCompleted, foundReverted, h]
  | thrown => simp [toggleWorkoutDay, targetCompleted, foundReverted, h]

theorem toggleWorkoutDay_notfound_success (uid date : String) (s : TrackerState)
    (h : findWorkout s.workoutDays date = none) :
    toggleWorkoutDay (some uid) date .success s =
      ({ s with workoutDays := notfoundOptimistic s.workoutDays uid date },
        some (⟨uid, date, true⟩ : WriteRequest)) := by
  simp [toggleWorkoutDay, targetCompleted, notfoundOptimistic, h]

theorem toggleWorkoutDay_notfound_revert (uid date : String) (s : TrackerState)
    (oc : WriteOutcome) (h : findWorkout s.workoutDays date = none)
    (hoc : oc ≠ .success) :
    toggleWorkoutDay (some uid) date oc s =
      ({ s with workoutDays := notfoundReverted s.workoutDays uid date },
        some (⟨uid, date, true⟩ : WriteRequest)) := by
  cases oc with
  | success => exact absurd rfl hoc
  | failure => simp [toggleWorkoutDay, targetCompleted, notfoundReverted, h]
  | thrown => simp [toggleWorkoutDay, targetCompleted, notfoundReverted, h]

/-- Removing the appended record restores exactly the prior collection when no
record for `date` existed. -/
theorem revert_notfound_eq (l : List WorkoutDay) (uid date : String)
    (h : findWorkout l date = none) : notfoundReverted l uid date = l := by
  unfold notfoundReverted
  rw [List.filter_append]
  have hall : ∀ w ∈ l, w.date ≠ date := (findWorkout_eq_none_iff l date).mp h
  have h1 : (l.filter fun day => day.date != date) = l := by
    apply List.filter_eq_self.mpr
    intro a ha
    simpa using hall a ha
  have h2 : (([(⟨uid, date, true⟩ : WorkoutDay)]).filter fun day => day.date != date) = [] := by
    simp
  rw [h1, h2, List.append_nil]

/-- In a collection with pairwise-distinct dates, a member with the looked-up
date is exactly what `find` returns. -/
theorem findWorkout_of_mem_unique (l : List WorkoutDay) (date : String)
    (w : WorkoutDay) (hp : l.Pairwise fun a b => a.date ≠ b.date)
    (hm : w ∈ l) (hd : w.date = date) : findWorkout l date = some w := by
  induction l with
  | nil => cases hm
  | cons a t ih =>
    rcases List.pairwise_cons.mp hp with ⟨hhead, htail⟩
    rcases List.mem_cons.mp hm with h | h
    · subst h
      unfold findWorkout
      simp [List.find?, hd]
    · have hne : a.date ≠ date := by
        intro hcontra
        exact hhead w h (hcontra.trans hd.symm)
      unfold findWorkout
      simp only [List.find?]
      have : (a.date == date) = false := by simpa using hne
      rw [this]
      exact ih (List.pairwise_cons.mp hp).2 h

/-- In a collection with pairwise-distinct dates, two members sharing a date
are equal. -/
theorem eq_of_mem_mem_date (l : List WorkoutDay) (x y : WorkoutDay)
    (hp : l.Pairwise fun a b => a.date ≠ b.date)
    (hx : x ∈ l) (hy : y ∈ l) (hd : x.date = y.date) : x = y := by
  induction l with
  | nil => cases hx
  | cons a t ih =>
    rcases List.pairwise_cons.mp hp with ⟨hhead, htail⟩
    rcases List.mem_cons.mp hx with h1 | h1 <;> rcases List.mem_cons.mp hy with h2 | h2
    · exact h1.trans h2.symm
    · subst h1; exact absurd hd (hhead y h2)
    · subst h2; exact absurd hd.symm (hhead x h1)
    · exact ih htail h1 h2

/-- The spec invariant, on a single-user local view, forces pairwise-distinct
dates. -/
theorem pairwise_date_of_invariant (l : List WorkoutDay) (uid : String)
    (hinv : atMostOnePerUserDate l) (huser : ∀ w ∈ l, w.user_id = uid) :
    l.Pairwise fun a b => a.date ≠ b.date := by
  induction l with
  | nil => exact List.Pairwise.nil
  | cons a t ih =>
    refine List.pairwise_cons.mpr ⟨?_, ?_⟩
    · intro b hb hcontra
      have hcount := hinv uid a.date
      have hua : a.user_id = uid := huser a (List.mem_cons_self a t)
      have hub : b.user_id = uid := huser b (List.mem_cons_of_mem a hb)
      have hpa : (a.user_id == uid && a.date == a.date) = true := by simp [hua]
      have hpb : (b.user_id == uid && b.date == a.date) = true := by simp [hub, hcontra]
      have hpos : 0 < t.countP fun r => r.user_id == uid && r.date == a.date :=
        List.countP_pos_iff.mpr ⟨b, hb, by simpa using hpb⟩
      simp only [List.countP_cons, hpa, if_true] at hcount
      omega
    · refine ih (fun u d => ?_) (fun w hw => huser w (List.mem_cons_of_mem a hw))
      have := hinv u d
      rw [List.countP_cons] at this
      omega

theorem updateCompleted_of_eq (date : String) (b : Bool) (day : WorkoutDay)
    (h : day.date = date) : updateCompleted date b day = { day with completed := b } := by
  unfold updateCompleted
  simp [h]

/-- After the optimistic map on a found record, `find` returns that record
with the new `completed` value. -/
theorem findWorkout_map_found (l : List WorkoutDay) (date : String) (w : WorkoutDay)
    (hf : findWorkout l date = some w) (b : Bool) :
    findWorkout (l.map (updateCompleted date b)) date = some { w with completed := b } := by
  rw [findWorkout_map_update, hf]
  simp [updateCompleted_of_eq date b w (findWorkout_date l date w hf)]

/-- After appending the new record for `date`, `find` returns it. -/
theorem findWorkout_append_new (l : List WorkoutDay) (date : String)
    (hf : findWorkout l date = none) (uid : String) (b : Bool) :
    findWorkout (l ++ [(⟨uid, date, b⟩ : WorkoutDay)]) date =
      some (⟨uid, date, b⟩ : WorkoutDay) := by
  unfold findWorkout at hf ⊢
  rw [List.find?_append, hf]
  simp [List.find?]

/-- After a successful toggle, the stored flag for the date is the target. -/
theorem isWorkoutCompleted_after_success (uid date : String) (s : TrackerState) :
    isWorkoutCompleted (toggleWorkoutDay (some uid) date .success s).1 date =
      targetCompleted s.workoutDays date := by
  cases hf : findWorkout s.workoutDays date with
  | none =>
    rw [toggleWorkoutDay_notfound_success uid date s hf]
    show isWorkoutCompleted { s with workoutDays := notfoundOptimistic s.workoutDays uid date } date = _
    unfold isWorkoutCompleted targetCompleted notfoundOptimistic
    rw [hf]
    have := findWorkout_append_new s.workoutDays date hf uid true
    simp only [show ({ s with workoutDays := s.workoutDays ++ [(⟨uid, date, true⟩ : WorkoutDay)] } : TrackerState).workoutDays = s.workoutDays ++ [(⟨uid, date, true⟩ : WorkoutDay)] from rfl, this]
  | some w =>
    rw [toggleWorkoutDay_found_success uid date s w hf]
    show isWorkoutCompleted { s with workoutDays := foundOptimistic s.workoutDays date w } date = _
    unfold isWorkoutCompleted targetCompleted foundOptimistic
    rw [hf]
    have := findWorkout_map_found s.workoutDays date w hf (!w.completed)
    simp only [this]

/-- A successful toggle flips the target for the next toggle. -/
theorem targetCompleted_after_success (uid date : String) (s : TrackerState) :
    targetCompleted (toggleWorkoutDay (some uid) date .success s).1.workoutDays date =
      !(targetCompleted s.workoutDays date) := by
  cases hf : findWorkout s.workoutDays date with
  | none =>
    rw [toggleWorkoutDay_notfound_success uid date s hf]
    show targetCompleted (notfoundOptimistic s.workoutDays uid date) date = _
    unfold targetCompleted notfoundOptimistic
    rw [hf, findWorkout_append_new s.workoutDays date hf uid true]
  | some w =>
    rw [toggleWorkoutDay_found_success uid date s w hf]
    show targetCompleted (foundOptimistic s.workoutDays date w) date = _
    unfold targetCompleted foundOptimistic
    rw [hf, findWorkout_map_found s.workoutDays date w hf (!w.completed)]

/-- The toggle target is the negation of the currently reported flag. -/
theorem targetCompleted_eq_not_isWorkoutCompleted (s : TrackerState) (date : String) :
    targetCompleted s.workoutDays date = !(isWorkoutCompleted s date) := by
  unfold targetCompleted isWorkoutCompleted
  cases hf : findWorkout s.workoutDays date <;> simp

end TrackerLemmas

/-- C1: with the spec's uniqueness invariant on the single-user local view,
a toggle whose persistence call reports failure or throws leaves the tracker
state (collection, loading flag, error message) exactly equal to the
pre-toggle state: a prior record's `completed` is restored, an appended record
is removed. -/
theorem claim_C1_failed_write_reverts (uid date : String) (oc : WriteOutcome)
    (s : TrackerState)
    (hinv : atMostOnePerUserDate s.workoutDays)
    (huser : ∀ w ∈ s.workoutDays, w.user_id = uid)
    (hoc : oc ≠ .success) :
    (toggleWorkoutDay (some uid) date oc s).1 = s := by
  have hp : s.workoutDays.Pairwise (fun a b => a.date ≠ b.date) :=
    pairwise_date_of_invariant s.workoutDays uid hinv huser
  cases hf : findWorkout s.workoutDays date with
  | none =>
    rw [toggleWorkoutDay_notfound_revert uid date s oc hf hoc]
    show ({ s with workoutDays := notfoundReverted s.workoutDays uid date } : TrackerState) = s
    rw [revert_notfound_eq s.workoutDays uid date hf]
  | some w =>
    rw [toggleWorkoutDay_found_revert uid date s w oc hf hoc]
    show ({ s with workoutDays := foundReverted s.workoutDays date w } : TrackerState) = s
    have hrev : foundReverted s.workoutDays date w = s.workoutDays := by
      unfold foundReverted
      rw [List.map_map]
      conv_rhs => rw [← List.map_id s.workoutDays]
      apply List.map_congr_left
      intro x hx
      by_cases hxd : x.date = date
      · have hxw : x = w :=
          eq_of_mem_mem_date s.workoutDays x w hp hx (findWorkout_mem s.workoutDays date w hf)
            (hxd.trans (findWorkout_date s.workoutDays date w hf).symm)
        rw [← hxw]
        show updateCompleted date x.completed (updateCompleted date (!x.completed) x) = x
        rw [updateCompleted_of_eq date (!x.completed) x hxd,
          updateCompleted_of_eq date x.completed { x with completed := !x.completed } hxd]
      · show updateCompleted date w.completed (updateCompleted date (!w.completed) x) = x
        rw [updateCompleted_of_ne date (!w.completed) x hxd,
          updateCompleted_of_ne date w.completed x hxd]
    rw [hrev]

/-- Witness for C1: toggling the lone completed `2024-01-05` with a failing
write leaves the state untouched. -/
theorem claim_C1_failed_write_reverts_witness :
    (toggleWorkoutDay (some "u1") "2024-01-05" .failure
        ⟨[(⟨"u1", "2024-01-05", true⟩ : WorkoutDay)], false, none⟩).1 =
      ⟨[(⟨"u1", "2024-01-05", true⟩ : WorkoutDay)], false, none⟩ :=
  claim_C1_failed_write_reverts "u1" "2024-01-05" .failure
    ⟨[(⟨"u1", "2024-01-05", true⟩ : WorkoutDay)], false, none⟩
    (by
      intro u d
      rw [List.countP_cons]
      simp [List.countP_nil]
      split <;> simp)
    (by simp)
    (by decide)

/-- C3: two toggles of the same date, both writes succeeding, return the
reported `completed` flag of that date to its original value. -/
theorem claim_C3_double_toggle_identity (uid date : String) (s : TrackerState) :
    isWorkoutCompleted
        (toggleWorkoutDay (some uid) date .success
          (toggleWorkoutDay (some uid) date .success s).1).1 date =
      isWorkoutCompleted s date := by
  rw [isWorkoutCompleted_after_success uid date (toggleWorkoutDay (some uid) date .success s).1,
    targetCompleted_after_success uid date s,
    targetCompleted_eq_not_isWorkoutCompleted s date]
  simp

/-- C5: every toggle — any date, any authentication state, any write outcome,
rollback included — preserves the uniqueness invariant (at most one record
per `(user_id, date)`). -/
theorem claim_C5_uniqueness_preserved (user : Option String) (date : String)
    (oc : WriteOutcome) (s : TrackerState)
    (h : atMostOnePerUserDate s.workoutDays) :
    atMostOnePerUserDate (toggleWorkoutDay user date oc s).1.workoutDays := by
  have hmap : ∀ (b : Bool) (l : List WorkoutDay), atMostOnePerUserDate l →
      atMostOnePerUserDate (l.map (updateCompleted date b)) := by
    intro b l hl u d
    rw [List.countP_map]
    have hcomp : ((fun r : WorkoutDay => r.user_id == u && r.date == d) ∘
        updateCompleted date b) = fun r : WorkoutDay => r.user_id == u && r.date == d := by
      funext r
      simp [Function.comp, updateCompleted_date, updateCompleted_user_id]
    rw [hcomp]
    exact hl u d
  cases user with
  | none => exact h
  | some uid =>
    cases hf : findWorkout s.workoutDays date with
    | some w =>
      cases oc with
      | success =>
        rw [toggleWorkoutDay_found_success uid date s w hf]
        exact hmap (!w.completed) s.workoutDays h
      | failure =>
        rw [toggleWorkoutDay_found_revert uid date s w .failure hf (by decide)]
        exact hmap w.completed _ (hmap (!w.completed) s.workoutDays h)
      | thrown =>
        rw [toggleWorkoutDay_found_revert uid date s w .thrown hf (by decide)]
        exact hmap w.completed _ (hmap (!w.completed) s.workoutDays h)
    | none =>
      have happend : atMostOnePerUserDate (notfoundOptimistic s.workoutDays uid date) := by
        intro u d
        unfold notfoundOptimistic
        rw [List.countP_append]
        by_cases hn : (((⟨uid, date, true⟩ : WorkoutDay)).user_id == u &&
            ((⟨uid, date, true⟩ : WorkoutDay)).date == d) = true
        · have hd : d = date := by
            have := (Bool.and_eq_true _ _).mp hn
            exact (beq_iff_eq.mp this.2).symm
          have hzero : (s.workoutDays.countP fun r => r.user_id == u && r.date == d) = 0 := by
            apply List.countP_eq_zero.mpr
            intro a ha hpa
            have := (Bool.and_eq_true _ _).mp hpa
            have had : a.date = date := (beq_iff_eq.mp this.2).trans hd
            exact (findWorkout_eq_none_iff s.workoutDays date).mp hf a ha had
          have hone : (([(⟨uid, date, true⟩ : WorkoutDay)]).countP
              fun r => r.user_id == u && r.date == d) ≤ 1 := by
            rw [List.countP_cons]
            simp [List.countP_nil]
            split <;> simp
          omega
        · have hzero : (([(⟨uid, date, true⟩ : WorkoutDay)]).countP
              fun r => r.user_id == u && r.date == d) = 0 := by
            apply List.countP_eq_zero.mpr
            intro a ha hpa
            rw [List.mem_singleton.mp ha] at hpa
            exact hn hpa
          rw [hzero]
          have := h u d
          omega
      cases oc with
      | success =>
        rw [toggleWorkoutDay_notfound_success uid date s hf]
        exact happend
      | failure =>
        rw [toggleWorkoutDay_notfound_revert uid date s .failure hf (by decide)]
        show atMostOnePerUserDate (notfoundReverted s.workoutDays uid date)
        rw [revert_notfound_eq s.workoutDays uid date hf]
        exact h
      | thrown =>
        rw [toggleWorkoutDay_notfound_revert uid date s .thrown hf (by decide)]
        show atMostOnePerUserDate (notfoundReverted s.workoutDays uid date)
        rw [revert_notfound_eq s.workoutDays uid date hf]
        exact h

/-- Witness for C5: toggling on an empty collection keeps the invariant. -/
theorem claim_C5_uniqueness_preserved_witness :
    atMostOnePerUserDate
      (toggleWorkoutDay (some "u1") "2024-01-05" .success ⟨[], true, none⟩).1.workoutDays :=
  claim_C5_uniqueness_preserved (some "u1") "2024-01-05" .success ⟨[], true, none⟩
    (by intro u d; simp [List.countP_nil])

/-- C7: with no authenticated user, `toggleWorkoutDay` is a complete no-op:
the state (collection, loading flag, error message) is returned unchanged and
no persistence request is issued. -/
theorem claim_C7_no_user_noop (date : String) (oc : WriteOutcome) (s : TrackerState) :
    toggleWorkoutDay none date oc s = (s, none) := rfl

/-- C8: when the persistence call reports success, the post-call state is
exactly the optimistic state of the spec's step 3 — no further mutation,
reconciliation or re-read — and the single request issued carries the target
`completed` value. -/
theorem claim_C8_success_is_optimistic (uid date : String) (s : TrackerState) :
    toggleWorkoutDay (some uid) date .success s =
      (specOptimisticState uid date s,
        some (⟨uid, date, targetCompleted s.workoutDays date⟩ : WriteRequest)) := by
  have hupd : ∀ b : Bool, updateCompleted date b =
      fun day : WorkoutDay =>
        if day.date == date then { day with completed := b } else day := by
    intro b; funext day; rfl
  cases h : findWorkout s.workoutDays date with
  | none =>
    rw [toggleWorkoutDay_notfound_success uid date s h]
    unfold specOptimisticState targetCompleted notfoundOptimistic
    rw [h]
  | some w =>
    rw [toggleWorkoutDay_found_success uid date s w h]
    unfold specOptimisticState targetCompleted foundOptimistic
    rw [h, hupd]

/-- C2: toggling a date with no prior local record (user authenticated,
write succeeding) appends exactly one record `{user_id := uid, date,
completed := true}` and leaves every other record untouched; the new record is
the only one for that date. -/
theorem claim_C2_first_toggle (uid date : String) (s : TrackerState)
    (h : ∀ w ∈ s.workoutDays, w.date ≠ date) :
    (toggleWorkoutDay (some uid) date .success s).1.workoutDays
        = s.workoutDays ++ [(⟨uid, date, true⟩ : WorkoutDay)] ∧
      ((toggleWorkoutDay (some uid) date .success s).1.workoutDays.filter
          fun w => w.date == date) = [(⟨uid, date, true⟩ : WorkoutDay)] := by
  have hn : findWorkout s.workoutDays date = none := (findWorkout_eq_none_iff _ _).mpr h
  rw [toggleWorkoutDay_notfound_success uid date s hn]
  refine ⟨rfl, ?_⟩
  show (notfoundOptimistic s.workoutDays uid date).filter (fun w => w.date == date) = _
  unfold notfoundOptimistic
  rw [List.filter_append]
  have h1 : (s.workoutDays.filter fun w => w.date == date) = [] :=
    List.filter_eq_nil_iff.mpr (fun a ha => by simpa using h a ha)
  rw [h1]
  simp

/-- Witness for C2 on the spec's own scenario: user `u1`, empty collection,
toggling `2024-01-05`. -/
theorem claim_C2_first_toggle_witness :
    (toggleWorkoutDay (some "u1") "2024-01-05" .success ⟨[], true, none⟩).1.workoutDays
        = [] ++ [(⟨"u1", "2024-01-05", true⟩ : WorkoutDay)] ∧
      ((toggleWorkoutDay (some "u1") "2024-01-05" .success ⟨[], true, none⟩).1.workoutDays.filter
          fun w => w.date == "2024-01-05") = [(⟨"u1", "2024-01-05", true⟩ : WorkoutDay)] :=
  claim_C2_first_toggle "u1" "2024-01-05" ⟨[], true, none⟩ (by simp)

/-- C4: `isWorkoutCompleted` is a pure lookup — false when no record matches
the date (in particular on a never-toggled date), and the record's `completed`
flag when one does (the local view having pairwise-distinct dates). -/
theorem claim_C4_pure_lookup (s : TrackerState) (date : String) :
    ((∀ w ∈ s.workoutDays, w.date ≠ date) → isWorkoutCompleted s date = false) ∧
      (∀ w ∈ s.workoutDays, w.date = date →
        s.workoutDays.Pairwise (fun a b => a.date ≠ b.date) →
        isWorkoutCompleted s date = w.completed) := by
  constructor
  · intro h
    unfold isWorkoutCompleted
    rw [(findWorkout_eq_none_iff _ _).mpr h]
  · intro w hw hd hp
    unfold isWorkoutCompleted
    rw [findWorkout_of_mem_unique s.workoutDays date w hp hw hd]

/-- Witness for C4: an empty tracker reports false, and a tracker holding a
completed `2024-01-05` reports that record's flag. -/
theorem claim_C4_pure_lookup_witness :
    isWorkoutCompleted ⟨[], true, none⟩ "2024-01-05" = false ∧
      isWorkoutCompleted ⟨[(⟨"u1", "2024-01-05", true⟩ : WorkoutDay)], false, none⟩
        "2024-01-05" = true :=
  ⟨(claim_C4_pure_lookup ⟨[], true, none⟩ "2024-01-05").1 (by simp),
    (claim_C4_pure_lookup ⟨[(⟨"u1", "2024-01-05", true⟩ : WorkoutDay)], false, none⟩
        "2024-01-05").2 ⟨"u1", "2024-01-05", true⟩ (by simp) rfl (by simp)⟩

/-- C6: a record once present for a date is never locally deleted by
`toggleWorkoutDay` — whatever the toggled date, the write outcome, or the
authentication state, a record with that date (and the same user) survives. -/
theorem claim_C6_never_deleted (user : Option String) (d targetDate : String)
    (oc : WriteOutcome) (s : TrackerState)
    (h : ∃ w ∈ s.workoutDays, w.date = d) :
    ∃ w ∈ (toggleWorkoutDay user targetDate oc s).1.workoutDays, w.date = d := by
  obtain ⟨w, hw, hwd⟩ := h
  cases user with
  | none => exact ⟨w, hw, hwd⟩
  | some uid =>
    cases hf : findWorkout s.workoutDays targetDate with
    | some w0 =>
      cases hoc : oc with
      | success =>
        rw [toggleWorkoutDay_found_success uid targetDate s w0 hf]
        refine ⟨updateCompleted targetDate (!w0.completed) w, ?_, ?_⟩
        · exact List.mem_map_of_mem _ hw
        · rw [updateCompleted_date]; exact hwd
      | failure =>
        rw [toggleWorkoutDay_found_revert uid targetDate s w0 .failure hf (by decide)]
        refine ⟨updateCompleted targetDate w0.completed
            (updateCompleted targetDate (!w0.completed) w), ?_, ?_⟩
        · exact List.mem_map_of_mem _ (List.mem_map_of_mem _ hw)
        · rw [updateCompleted_date, updateCompleted_date]; exact hwd
      | thrown =>
        rw [toggleWorkoutDay_found_revert uid targetDate s w0 .thrown hf (by decide)]
        refine ⟨updateCompleted targetDate w0.completed
            (updateCompleted targetDate (!w0.completed) w), ?_, ?_⟩
        · exact List.mem_map_of_mem _ (List.mem_map_of_mem _ hw)
        · rw [updateCompleted_date, updateCompleted_date]; exact hwd
    | none =>
      cases hoc : oc with
      | success =>
        rw [toggleWorkoutDay_notfound_success uid targetDate s hf]
        exact ⟨w, List.mem_append_left _ hw, hwd⟩
      | failure =>
        rw [toggleWorkoutDay_notfound_revert uid targetDate s .failure hf (by decide)]
        show ∃ x ∈ notfoundReverted s.workoutDays uid targetDate, x.date = d
        rw [revert_notfound_eq s.workoutDays uid targetDate hf]
        exact ⟨w, hw, hwd⟩
      | thrown =>
        rw [toggleWorkoutDay_notfound_revert uid targetDate s .thrown hf (by decide)]
        show ∃ x ∈ notfoundReverted s.workoutDays uid targetDate, x.date = d
        rw [revert_notfound_eq s.workoutDays uid targetDate hf]
        exact ⟨w, hw, hwd⟩

/-- Witness for C6: the `2024-01-05` record survives a failed toggle of a
different date. -/
theorem claim_C6_never_deleted_witness :
    ∃ w ∈ (toggleWorkoutDay (some "u1") "2024-01-06" .failure
        ⟨[(⟨"u1", "2024-01-05", true⟩ : WorkoutDay)], false, none⟩).1.workoutDays,
      w.date = "2024-01-05" :=
  claim_C6_never_deleted (some "u1") "2024-01-05" "2024-01-06" .failure
    ⟨[(⟨"u1", "2024-01-05", true⟩ : WorkoutDay)], false, none⟩
    ⟨⟨"u1", "2024-01-05", true⟩, by simp, rfl⟩

/-! ## Server actions (the exercise-query functions in `app/record/actions`/
`app/exercises/actions`)

Each `await`ed backing-store call either resolves to a Supabase-style
`{ data, error }` response or throws; `JsResult` models the two outcomes and
`tryCatch` models the `try { ... } catch { ... }` wrapper of each action. -/

/-- An awaited JavaScript expression: resolves to a value or throws. -/
inductive JsResult (α : Type) where
  | ok (val : α)
  | thrown (msg : String)
deriving DecidableEq, Repr

/-- `await` sequencing: a thrown exception propagates. -/
def jsBind {α β : Type} : JsResult α → (α → JsResult β) → JsResult β
  | .thrown m, _ => .thrown m
  | .ok v, f => f v

/-- `try { body } catch (e) { handler }`. -/
def tryCatch {α : Type} : JsResult α → (String → JsResult α) → JsResult α
  | .ok v, _ => .ok v
  | .thrown m, h => h m

/-- A Supabase list response `{ data, error }`. -/
structure SbResp (α : Type) where
  data : Option (List α)
  error : Option String
deriving DecidableEq, Repr

/-- A Supabase `.single()` response `{ data, error }`. -/
structure SbSingle (α : Type) where
  data : Option α
  error : Option String
deriving DecidableEq, Repr

/-- `categories` row (`id, name`). -/
structure CategoryRow where
  id : Nat
  name : String
deriving DecidableEq, Repr

/-- `exercises` row (the columns the actions read). -/
structure ExerciseRow where
  id : Nat
  name : String
  image_url : Option String
  ex_description : Option String
  duration : Option String
  reps : Option String
deriving DecidableEq, Repr

/-- `exercise_groups` row as selected by the fallback query. -/
structure GroupRow where
  id : Nat
  name : String
  image_url : Option String
  body_sec : Option Nat
  fir_level : Option Nat
deriving DecidableEq, Repr

/-- Row returned by the `get_exercise_groups_with_details` RPC. -/
structure RpcGroupRow where
  id : Nat
  name : String
  image_url : Option String
  body_sec : Option Nat
  fir_level : Option Nat
  body_section : Option String
  fir_name : Option String
deriving DecidableEq, Repr

/-- `exercise_fir` row (`id, name`). -/
structure FirRow where
  id : Nat
  name : String
deriving DecidableEq, Repr

/-- `exercise_body_section` row (`id, body_section`). -/
structure BodySectionRow where
  id : Nat
  body_section : String
deriving DecidableEq, Repr

/-- A Supabase `!inner(*)` join value: absent, a single object, or an array
(the code handles both shapes). -/
inductive JoinVal (α : Type) where
  | absent
  | single (a : α)
  | arr (l : List α)
deriving DecidableEq, Repr

/-- The group row with its joined body-section and FIR data, as returned by
the `select('*, exercise_body_section!inner(*), exercise_fir!inner(*)')`
query in `getExercisesByGroup`. -/
structure GroupJoined where
  id : Nat
  name : String
  image_url : Option String
  body_sec : Option Nat
  fir_level : Option Nat
  exercise_body_section : JoinVal BodySectionRow
  exercise_fir : JoinVal FirRow
deriving DecidableEq, Repr

/-- The `ExerciseWithLabels` view model (`categories` is absent for the
warmup/stretch shapes, hence optional). -/
structure ExerciseWithLabels where
  id : Nat
  name : String
  image : String
  description : Option String
  duration : Option String
  reps : Option String
  labels : List String
  categories : Option (List String)
deriving DecidableEq, Repr

/-- The `ExerciseGroup` view model built by `getExerciseGroups`. -/
structure ExerciseGroup where
  id : Nat
  name : String
  description : Option String
  image_url : Option String
  body_sec : Option Nat
  body_section_name : Option String
  fir_level : Option Nat
  fir_level_name : Option String
  category_id : Option String
deriving DecidableEq, Repr

/-- The backing store as seen by the actions: one field per query site.
A `JsResult` per call models that any individual `await` may throw. -/
structure DB where
  categoriesIlike : String → JsResult (SbResp CategoryRow)
  allCategories : JsResult (SbResp CategoryRow)
  exercisesByCategory : Nat → JsResult (SbResp ExerciseRow)
  exercisesLimit10 : JsResult (SbResp ExerciseRow)
  exerciseById : Nat → JsResult (SbSingle ExerciseRow)
  rpcExerciseGroups : JsResult (SbResp RpcGroupRow)
  exerciseGroupsTable : JsResult (SbResp GroupRow)
  firAll : JsResult (SbResp FirRow)
  bodySectionAll : JsResult (SbResp BodySectionRow)
  groupById : Nat → JsResult (SbSingle GroupJoined)
  exercisesByGroup : String → JsResult (SbResp ExerciseRow)
  bodySectionById : Nat → JsResult (SbSingle BodySectionRow)
  firById : Nat → JsResult (SbSingle FirRow)
  bodySectionsOrdered : JsResult (SbResp BodySectionRow)

/-- JavaScript `v || d` for a nullable string (`null`, `undefined` and `""`
are falsy). -/
def jsOrStr (v : Option String) (d : String) : String :=
  match v with
  | none => d
  | some s => if s = "" then d else s

/-- JavaScript `v || null` for a nullable string. -/
def jsOrNullStr (v : Option String) : Option String :=
  match v with
  | none => none
  | some s => if s = "" then none else some s

/-- JavaScript truthiness of a nullable number (`null` and `0` are falsy). -/
def jsTruthyNat (v : Option Nat) : Bool :=
  match v with
  | none => false
  | some n => n != 0

/-- JavaScript `haystack.includes(needle)`. -/
def jsIncludes (s pat : String) : Bool :=
  s.toList.tails.any fun t => pat.toList.isPrefixOf t

/-- `s.charAt(0).toUpperCase() + s.slice(1)`. -/
def capitalizeFirst (s : String) : String :=
  match s.toList with
  | [] => ""
  | c :: cs => String.mk (c.toUpper :: cs)

/-- `getDefaultCategories`: body region from name keywords, plus a default
FIR level. -/
def getDefaultCategories (exerciseName : String) : List String :=
  let nm := exerciseName.toLower
  let categories : List String :=
    if jsIncludes nm "press" || jsIncludes nm "pull" || jsIncludes nm "overhead" then
      ["Upper"]
    else if jsIncludes nm "thrust" || jsIncludes nm "brace" || jsIncludes nm "lateral" then
      ["Middle"]
    else if jsIncludes nm "squat" || jsIncludes nm "deadlift" || jsIncludes nm "raise" then
      ["Lower"]
    else []
  categories ++ ["FIR: Low"]

/-- The `reduce`-built record `acc[item.id] = item.name`, looked up at `k`
(later entries overwrite earlier ones). -/
def recordLookup (pairs : List (Nat × String)) (k : Nat) : Option String :=
  (pairs.foldl (fun acc p => fun q => if q = p.1 then some p.2 else acc q)
    (fun _ => none)) k

def placeholderImage : String := "/placeholder.svg?height=200&width=300"

def warmupPlaceholder : ExerciseWithLabels :=
  ⟨0, "Sample Warmup Exercise", placeholderImage,
    some "This is a placeholder. No actual warmup exercises found in the database.",
    some "30", some "4", [], none⟩

def stretchPlaceholder : ExerciseWithLabels :=
  ⟨0, "Sample Stretch Exercise", placeholderImage,
    some "This is a placeholder. No actual stretch exercises found in the database.",
    some "15-30", none, [], none⟩

def workoutPlaceholder : ExerciseWithLabels :=
  ⟨0, "Sample Workout Exercise", placeholderImage,
    some "This is a placeholder. No Workout exercises found in the database.",
    some "60", none, [], some ["Sample"]⟩

/-- The row-to-view mapping inside `getWarmupExercises`. -/
def mapWarmupExercise (exercise : ExerciseRow) : ExerciseWithLabels :=
  { id := exercise.id
    name := exercise.name
    image := jsOrStr exercise.image_url placeholderImage
    description := some (jsOrStr exercise.ex_description "No description available")
    duration := some (jsOrStr exercise.duration "30")
    reps := some (jsOrStr exercise.reps "4")
    labels := []
    categories := none }

/-- `getWarmupExercises()`. -/
def getWarmupExercises (db : DB) : JsResult (List ExerciseWithLabels) :=
  tryCatch
    (jsBind (db.categoriesIlike "%warmup%") fun catResp =>
      match catResp.error with
      | some _ => .ok []
      | none =>
        match catResp.data with
        | none => jsBind db.allCategories fun _ => .ok []
        | some [] => jsBind db.allCategories fun _ => .ok []
        | some (c :: _) =>
          jsBind (db.exercisesByCategory c.id) fun exResp =>
            match exResp.error with
            | some _ => .ok []
            | none =>
              match exResp.data with
              | none => .ok [warmupPlaceholder]
              | some [] => .ok [warmupPlaceholder]
              | some (e :: es) => .ok ((e :: es).map mapWarmupExercise))
    (fun _ => .ok [])

/-- The image handling inside `getStretchExercises` (only `http...` or
rooted paths are accepted). -/
def stretchImage (v : Option String) : String :=
  match v with
  | none => placeholderImage
  | some u =>
    if u = "" then placeholderImage
    else if u.startsWith "http" || u.startsWith "/" then u
    else placeholderImage

/-- The row-to-view mapping inside `getStretchExercises`. -/
def mapStretchExercise (exercise : ExerciseRow) : ExerciseWithLabels :=
  { id := exercise.id
    name := exercise.name
    image := stretchImage exercise.image_url
    description := some (jsOrStr exercise.ex_description "No description available")
    duration := some (jsOrStr exercise.duration "15-30")
    reps := jsOrNullStr exercise.reps
    labels := []
    categories := none }

/-- `getStretchExercises()`. -/
def getStretchExercises (db : DB) : JsResult (List ExerciseWithLabels) :=
  tryCatch
    (jsBind (db.categoriesIlike "%stretch%") fun catResp =>
      match catResp.error with
      | some _ => .ok []
      | none =>
        match catResp.data with
        | none => jsBind db.allCategories fun _ => .ok []
        | some [] => jsBind db.allCategories fun _ => .ok []
        | some (c :: _) =>
          jsBind (db.exercisesByCategory c.id) fun exResp =>
            match exResp.error with
            | some _ => .ok []
            | none =>
              match exResp.data with
              | none => .ok [stretchPlaceholder]
              | some [] => .ok [stretchPlaceholder]
              | some (e :: es) => .ok ((e :: es).map mapStretchExercise))
    (fun _ => .ok [])

/-- The row-to-view mapping of `getWorkoutExercises` (same for the category
exercises and the fallback ones). -/
def mapWorkoutExercise (exercise : ExerciseRow) : ExerciseWithLabels :=
  { id := exercise.id
    name := exercise.name
    image := jsOrStr exercise.image_url placeholderImage
    description := some (jsOrStr exercise.ex_description "No description available")
    duration := jsOrNullStr exercise.duration
    reps := jsOrNullStr exercise.reps
    labels := []
    categories := some (getDefaultCategories exercise.name) }

/-- `getWorkoutExercises()` — including the `limit(10)` fallback query issued
when the workout category holds no exercises. -/
def getWorkoutExercises (db : DB) : JsResult (List ExerciseWithLabels) :=
  tryCatch
    (jsBind (db.categoriesIlike "%workout%") fun catResp =>
      match catResp.error with
      | some _ => .ok []
      | none =>
        match catResp.data with
        | none => jsBind db.allCategories fun _ => .ok []
        | some [] => jsBind db.allCategories fun _ => .ok []
        | some (c :: _) =>
          jsBind (db.exercisesByCategory c.id) fun exResp =>
            match exResp.error with
            | some _ => .ok []
            | none =>
              match exResp.data with
              | some (e :: es) => .ok ((e :: es).map mapWorkoutExercise)
              | _ =>
                jsBind db.exercisesLimit10 fun fbResp =>
                  match fbResp.error with
                  | some _ => .ok [workoutPlaceholder]
                  | none =>
                    match fbResp.data with
                    | none => .ok [workoutPlaceholder]
                    | some [] => .ok [workoutPlaceholder]
                    | some (f :: fs) => .ok ((f :: fs).map mapWorkoutExercise))
    (fun _ => .ok [])

/-- `getExerciseById(id)`: `undefined` is `none`. -/
def getExerciseById (db : DB) (id : Nat) : JsResult (Option ExerciseWithLabels) :=
  tryCatch
    (jsBind (db.exerciseById id) fun resp =>
      match resp.error with
      | some _ => .ok none
      | none =>
        match resp.data with
        | none => .ok none
        | some exercise =>
          .ok (some
            { id := exercise.id
              name := exercise.name
              image := jsOrStr exercise.image_url placeholderImage
              description := exercise.ex_description
              duration := jsOrNullStr exercise.duration
              reps := jsOrNullStr exercise.reps
              labels := []
              categories := some (getDefaultCategories exercise.name) }))
    (fun _ => .ok none)

/-- The exercise type argument of `getExercisesByType`. -/
inductive ExType where
  | warmup
  | stretch
  | workout
deriving DecidableEq, Repr

/-- The `switch` mapping the type to its category-name pattern. -/
def typePattern : ExType → String
  | .warmup => "%warmup%"
  | .stretch => "%stretch%"
  | .workout => "%workout%"

/-- The row-to-view mapping inside `getExercisesByType`. -/
def mapTypeExercise (exercise : ExerciseRow) : ExerciseWithLabels :=
  { id := exercise.id
    name := exercise.name
    image := jsOrStr exercise.image_url placeholderImage
    description := exercise.ex_description
    duration := jsOrNullStr exercise.duration
    reps := jsOrNullStr exercise.reps
    labels := []
    categories := some [] }

/-- `getExercisesByType(type)` (the category query's reported error is not
inspected there, only its `data`). -/
def getExercisesByType (db : DB) (type_ : ExType) : JsResult (List ExerciseWithLabels) :=
  tryCatch
    (jsBind (db.categoriesIlike (typePattern type_)) fun catResp =>
      match catResp.data with
      | none => .ok []
      | some [] => .ok []
      | some (c :: _) =>
        jsBind (db.exercisesByCategory c.id) fun exResp =>
          match exResp.error with
          | some _ => .ok []
          | none =>
            match exResp.data with
            | none => .ok []
            | some exs => .ok (exs.map mapTypeExercise))
    (fun _ => .ok [])

/-- `getExerciseGroups()`: RPC first; on a reported RPC error, a fallback
query over `exercise_groups` enriched by two lookup tables. -/
def getExerciseGroups (db : DB) : JsResult (List ExerciseGroup) :=
  tryCatch
    (jsBind db.rpcExerciseGroups fun rpcResp =>
      match rpcResp.error with
      | some _ =>
        jsBind db.exerciseGroupsTable fun fbResp =>
          match fbResp.error with
          | some _ => .ok []
          | none =>
            match fbResp.data with
            | none => .ok []
            | some fallbackData =>
              jsBind db.firAll fun firResp =>
                jsBind db.bodySectionAll fun bsResp =>
                  let firMap := fun k =>
                    recordLookup ((firResp.data.getD []).map fun item => (item.id, item.name)) k
                  let bodySectionMap := fun k =>
                    recordLookup ((bsResp.data.getD []).map fun item => (item.id, item.body_section)) k
                  .ok (fallbackData.map fun group =>
                    { id := group.id
                      name := group.name
                      description := none
                      image_url := group.image_url
                      body_sec := group.body_sec
                      body_section_name :=
                        match group.body_sec with
                        | some n => if n != 0 then jsOrNullStr (bodySectionMap n) else none
                        | none => none
                      fir_level := group.fir_level
                      fir_level_name :=
                        match group.fir_level with
                        | some n => if n != 0 then jsOrNullStr (firMap n) else none
                        | none => none
                      category_id := none })
      | none =>
        .ok ((rpcResp.data.getD []).map fun group =>
          { id := group.id
            name := group.name
            description := none
            image_url := group.image_url
            body_sec := group.body_sec
            body_section_name := jsOrNullStr group.body_section
            fir_level := group.fir_level
            fir_level_name := jsOrNullStr group.fir_name
            category_id := none }))
    (fun _ => .ok [])

/-- Extraction of the joined body-section value (`object`/array handling,
`|| null`). -/
def joinedBodySection (j : JoinVal BodySectionRow) : Option String :=
  match j with
  | .absent => none
  | .single r => jsOrNullStr (some r.body_section)
  | .arr l =>
    match l.head? with
    | some r => jsOrNullStr (some r.body_section)
    | none => none

/-- Extraction of the joined FIR level (`object`/array handling, `|| 'Low'`). -/
def joinedFirLevel (j : JoinVal FirRow) : String :=
  match j with
  | .absent => "Low"
  | .single r => jsOrStr (some r.name) "Low"
  | .arr l =>
    match l.head? with
    | some r => jsOrStr (some r.name) "Low"
    | none => "Low"

/-- The body region chosen from `getDefaultCategories` when the group carries
no body section. -/
def defaultRegionList (nm : String) : List String :=
  match (getDefaultCategories nm).find? (fun cat => ["Upper", "Middle", "Lower"].contains cat) with
  | some region => [region]
  | none => []

/-- The per-exercise category list built inside `getExercisesByGroup`. -/
def groupCategories (bodySection : Option String) (firLevel : String)
    (exerciseName : String) : List String :=
  (match bodySection with
   | some bs => if bs = "" then defaultRegionList exerciseName else [capitalizeFirst bs]
   | none => defaultRegionList exerciseName)
  ++ ["FIR: " ++ firLevel]

/-- `getExercisesByGroup(groupId)`: fetch the group with joins, fetch its
exercises by the `exercise_group` column, resolve body section and FIR level
(with two conditional fallback lookups), and map. -/
def getExercisesByGroup (db : DB) (groupId : Nat) : JsResult (List ExerciseWithLabels) :=
  tryCatch
    (jsBind (db.groupById groupId) fun gResp =>
      match gResp.error with
      | some _ => .ok []
      | none =>
        match gResp.data with
        | none => .ok []
        | some group =>
          jsBind (db.exercisesByGroup (toString groupId)) fun exResp =>
            match exResp.error with
            | some _ => .ok []
            | none =>
              match exResp.data with
              | none => .ok []
              | some [] => .ok []
              | some (e :: es) =>
                let bodySection0 := joinedBodySection group.exercise_body_section
                let firLevel0 := joinedFirLevel group.exercise_fir
                let bsStep : JsResult (Option String) :=
                  match bodySection0, group.body_sec with
                  | none, some n =>
                    if n != 0 then
                      jsBind (db.bodySectionById n) fun bsResp =>
                        .ok (match bsResp.data with
                             | some r => some r.body_section
                             | none => none)
                    else .ok none
                  | bs, _ => .ok bs
                jsBind bsStep fun bodySection =>
                  let firStep : JsResult String :=
                    if firLevel0 = "Low" then
                      match group.fir_level with
                      | some n =>
                        if n != 0 then
                          jsBind (db.firById n) fun firResp =>
                            .ok (match firResp.data with
                                 | some r => r.name
                                 | none => firLevel0)
                        else .ok firLevel0
                      | none => .ok firLevel0
                    else .ok firLevel0
                  jsBind firStep fun firLevel =>
                    .ok ((e :: es).map fun exercise =>
                      { id := exercise.id
                        name := exercise.name
                        image := jsOrStr exercise.image_url placeholderImage
                        description := exercise.ex_description
                        duration := jsOrNullStr exercise.duration
                        reps := jsOrNullStr exercise.reps
                        labels := []
                        categories := some (groupCategories bodySection firLevel exercise.name) }))
    (fun _ => .ok [])

/-- The fallback list of `getBodySections`. -/
def bodySectionsFallback : List String := ["lower", "middle", "upper"]

/-- `getBodySections()`. -/
def getBodySections (db : DB) : JsResult (List String) :=
  tryCatch
    (jsBind db.bodySectionsOrdered fun resp =>
      match resp.error with
      | some _ => .ok bodySectionsFallback
      | none =>
        match resp.data with
        | none => .ok bodySectionsFallback
        | some [] => .ok bodySectionsFallback
        | some (r :: rs) => .ok ((r :: rs).map fun item => item.body_section))
    (fun _ => .ok bodySectionsFallback)

/-- A `catch` handler that resolves always yields a resolving action. -/
theorem tryCatch_always_ok {α : Type} (b : JsResult α) (d : α) :
    ∃ v, tryCatch b (fun _ => .ok d) = .ok v := by
  cases b with
  | ok v => exact ⟨v, rfl⟩
  | thrown m => exact ⟨d, rfl⟩

/-- An environment whose every backing-store call throws. -/
def throwAllDb : DB where
  categoriesIlike := fun _ => .thrown "e"
  allCategories := .thrown "e"
  exercisesByCategory := fun _ => .thrown "e"
  exercisesLimit10 := .thrown "e"
  exerciseById := fun _ => .thrown "e"
  rpcExerciseGroups := .thrown "e"
  exerciseGroupsTable := .thrown "e"
  firAll := .thrown "e"
  bodySectionAll := .thrown "e"
  groupById := fun _ => .thrown "e"
  exercisesByGroup := fun _ => .thrown "e"
  bodySectionById := fun _ => .thrown "e"
  firById := fun _ => .thrown "e"
  bodySectionsOrdered := .thrown "e"

/-- An environment where the workout category exists but holds no exercises
and the `limit(10)` fallback query reports a backing-store error. -/
def fallbackErrDb : DB :=
  { throwAllDb with
    categoriesIlike := fun _ => .ok ⟨some [⟨1, "Workout"⟩], none⟩
    exercisesByCategory := fun _ => .ok ⟨some [], none⟩
    exercisesLimit10 := .ok ⟨none, some "db error"⟩ }

/-- C9 counterexample: in `fallbackErrDb` the fallback query reports a
backing-store error, yet `getWorkoutExercises` returns the one-element
placeholder list, not the empty list. -/
theorem claim_C9_counterexample :
    fallbackErrDb.exercisesLimit10 = .ok ⟨none, some "db error"⟩ ∧
      getWorkoutExercises fallbackErrDb = .ok [workoutPlaceholder] ∧
      [workoutPlaceholder] ≠ ([] : List ExerciseWithLabels) := by
  refine ⟨rfl, by decide, by simp⟩

/-- C9 (amended): every exercise-query action resolves normally for every
backing-store behaviour (no exception ever propagates), and a thrown
exception in the action's first backing-store call yields the empty list
(`getExerciseById`: `undefined`).  A *reported* store error need not yield
the empty list (see the counterexample). -/
theorem claim_C9_amended_no_throw :
    (∀ db, ∃ v, getWarmupExercises db = .ok v) ∧
      (∀ db, ∃ v, getStretchExercises db = .ok v) ∧
      (∀ db, ∃ v, getWorkoutExercises db = .ok v) ∧
      (∀ db t, ∃ v, getExercisesByType db t = .ok v) ∧
      (∀ db, ∃ v, getExerciseGroups db = .ok v) ∧
      (∀ db g, ∃ v, getExercisesByGroup db g = .ok v) ∧
      (∀ db i, ∃ v, getExerciseById db i = .ok v) ∧
      (∀ db m, db.categoriesIlike "%warmup%" = .thrown m → getWarmupExercises db = .ok []) ∧
      (∀ db m, db.categoriesIlike "%stretch%" = .thrown m → getStretchExercises db = .ok []) ∧
      (∀ db m, db.categoriesIlike "%workout%" = .thrown m → getWorkoutExercises db = .ok []) ∧
      (∀ db t m, db.categoriesIlike (typePattern t) = .thrown m →
        getExercisesByType db t = .ok []) ∧
      (∀ db m, db.rpcExerciseGroups = .thrown m → getExerciseGroups db = .ok []) ∧
      (∀ db g m, db.groupById g = .thrown m → getExercisesByGroup db g = .ok []) ∧
      (∀ db i m, db.exerciseById i = .thrown m → getExerciseById db i = .ok none) := by
  refine ⟨?_, ?_, ?_, ?_, ?_, ?_, ?_, ?_, ?_, ?_, ?_, ?_, ?_, ?_⟩
  · intro db; unfold getWarmupExercises; exact tryCatch_always_ok _ _
  · intro db; unfold getStretchExercises; exact tryCatch_always_ok _ _
  · intro db; unfold getWorkoutExercises; exact tryCatch_always_ok _ _
  · intro db t; unfold getExercisesByType; exact tryCatch_always_ok _ _
  · intro db; unfold getExerciseGroups; exact tryCatch_always_ok _ _
  · intro db g; unfold getExercisesByGroup; exact tryCatch_always_ok _ _
  · intro db i; unfold getExerciseById; exact tryCatch_always_ok _ _
  · intro db m h; simp [getWarmupExercises, h, jsBind, tryCatch]
  · intro db m h; simp [getStretchExercises, h, jsBind, tryCatch]
  · intro db m h; simp [getWorkoutExercises, h, jsBind, tryCatch]
  · intro db t m h; simp [getExercisesByType, h, jsBind, tryCatch]
  · intro db m h; simp [getExerciseGroups, h, jsBind, tryCatch]
  · intro db g m h; simp [getExercisesByGroup, h, jsBind, tryCatch]
  · intro db i m h; simp [getExerciseById, h, jsBind, tryCatch]

/-- Witness for the amended C9 on the all-throwing environment. -/
theorem claim_C9_amended_no_throw_witness :
    getWarmupExercises throwAllDb = .ok [] ∧
      getStretchExercises throwAllDb = .ok [] ∧
      getWorkoutExercises throwAllDb = .ok [] ∧
      getExercisesByType throwAllDb .warmup = .ok [] ∧
      getExerciseGroups throwAllDb = .ok [] ∧
      getExercisesByGroup throwAllDb 1 = .ok [] ∧
      getExerciseById throwAllDb 1 = .ok none := by
  obtain ⟨-, -, -, -, -, -, -, t1, t2, t3, t4, t5, t6, t7⟩ := claim_C9_amended_no_throw
  exact ⟨t1 throwAllDb "e" rfl, t2 throwAllDb "e" rfl, t3 throwAllDb "e" rfl,
    t4 throwAllDb .warmup "e" rfl, t5 throwAllDb "e" rfl, t6 throwAllDb 1 "e" rfl,
    t7 throwAllDb 1 "e" rfl⟩

/-- C10: `getBodySections` always resolves to a non-empty list; it is exactly
`["lower", "middle", "upper"]` whenever the query throws, reports an error or
yields no rows, and otherwise the queried `body_section` values. -/
theorem claim_C10_body_sections (db : DB) :
    ∃ l, getBodySections db = .ok l ∧ l ≠ [] ∧
      (∀ m, db.bodySectionsOrdered = .thrown m → l = bodySectionsFallback) ∧
      (∀ resp, db.bodySectionsOrdered = .ok resp →
        (resp.error.isSome ∨ resp.data = none ∨ resp.data = some []) →
        l = bodySectionsFallback) ∧
      (∀ resp rows, db.bodySectionsOrdered = .ok resp → resp.error = none →
        resp.data = some rows → rows ≠ [] →
        l = rows.map fun item => item.body_section) := by
  cases hq : db.bodySectionsOrdered with
  | thrown m =>
    refine ⟨bodySectionsFallback, ?_, by simp [bodySectionsFallback], ?_, ?_, ?_⟩
    · simp [getBodySections, hq, jsBind, tryCatch]
    · intro _ _; rfl
    · intro resp hresp _
      cases hresp
    · intro resp rows hresp _ _ _
      cases hresp
  | ok resp =>
    cases hre : resp.error with
    | some err =>
      refine ⟨bodySectionsFallback, ?_, by simp [bodySectionsFallback], ?_, ?_, ?_⟩
      · simp [getBodySections, hq, jsBind, tryCatch, hre]
      · intro m hm
        cases hm
      · intro _ _ _; rfl
      · intro resp' rows hresp' herr' _ _
        injection hresp' with h'
        subst h'
        rw [hre] at herr'
        cases herr'
    | none =>
      cases hrd : resp.data with
      | none =>
        refine ⟨bodySectionsFallback, ?_, by simp [bodySectionsFallback], ?_, ?_, ?_⟩
        · simp [getBodySections, hq, jsBind, tryCatch, hre, hrd]
        · intro m hm
          cases hm
        · intro _ _ _; rfl
        · intro resp' rows hresp' _ hdata' _
          injection hresp' with h'
          subst h'
          rw [hrd] at hdata'
          cases hdata'
      | some rows =>
        cases rows with
        | nil =>
          refine ⟨bodySectionsFallback, ?_, by simp [bodySectionsFallback], ?_, ?_, ?_⟩
          · simp [getBodySections, hq, jsBind, tryCatch, hre, hrd]
          · intro m hm
            cases hm
          · intro _ _ _; rfl
          · intro resp' rows' hresp' _ hdata' hne'
            injection hresp' with h'
            subst h'
            rw [hrd] at hdata'
            injection hdata' with h2
            exact absurd h2.symm hne'
        | cons r rs =>
          refine ⟨(r :: rs).map (fun item => item.body_section), ?_, by simp, ?_, ?_, ?_⟩
          · simp [getBodySections, hq, jsBind, tryCatch, hre, hrd]
          · intro m hm
            cases hm
          · intro resp' hresp' hcond
            injection hresp' with h'
            subst h'
            rcases hcond with h | h | h
            · rw [hre] at h
              cases h
            · rw [hrd] at h
              cases h
            · rw [hrd] at h
              injection h with h2
              cases h2
          · intro resp' rows' hresp' _ hdata' _
            injection hresp' with h'
            subst h'
            rw [hrd] at hdata'
            injection hdata' with h2
            rw [h2]

/-- Witness for C10 on the all-throwing environment: the fallback list. -/
theorem claim_C10_body_sections_witness :
    getBodySections throwAllDb = .ok bodySectionsFallback := by
  obtain ⟨l, h1, -, h3, -, -⟩ := claim_C10_body_sections throwAllDb
  rw [h3 "e" rfl] at h1
  exact h1

end FitApp
